import Mathlib

/-!
Verification development for the hacspec code-generation backend
(`language/src/rustspec_to_fstar.rs`): the type-directed AST-to-document
translator from the hacspec subset of Rust to F* concrete syntax.

Embedding conventions:

* The translator's input AST (`rustspec.rs`) and the type dictionary
  (`typechecker.rs`) are not part of the sources; their shapes are modelled
  from the specification's data model (§3) and from their uses in
  `rustspec_to_fstar.rs`.  Source spans are dropped (they never influence the
  output) and machine-integer literal payloads are modelled as naturals.
* The document algebra is the external `pretty` crate; it is modelled from
  the specification (§4.1): the classic two-mode (flat/break) Wadler
  pretty-printing algebra with greedy fitting that inspects the remainder of
  the current line.
* Rust panics (`panic!`, `unwrap` on `None`, `unimplemented!`) are modelled
  as `none` (or an explicit `panicked` value), and every recursive function
  carries explicit fuel so that all definitions are structurally recursive
  and kernel-computable; exhausted fuel is also `none`/`outOfFuel`.
  Dictionary chasing in `translate_binop` is the one place where the Rust
  code recurses through the dictionary and termination is a real question;
  the fuel makes that explicit.
-/

namespace Hacspec

/-! ## Document algebra

Modelled from the spec: the Document Algebra of §4.1 (the external `pretty`
crate used by the translator).  `line` renders as a space when flat, `line_`
as nothing when flat, `hardline` always breaks (and prevents the enclosing
group from flattening). -/

inductive Doc where
  | nil
  | text (s : String)
  | line
  | line_
  | hardline
  | append (a b : Doc)
  | nest (n : Nat) (d : Doc)
  | group (d : Doc)
deriving Repr, DecidableEq

instance : Append Doc := ⟨Doc.append⟩

/-- Rendering mode: `flat` lays a group on one line, `brk` breaks its lines. -/
inductive RMode where
  | flat
  | brk
deriving Repr, DecidableEq

/-- Structural size of a document, used to compute a sufficient fuel for the
renderer (each rendering step strictly decreases the total size of the
pending command list). -/
def Doc.size : Doc → Nat
  | .nil => 1
  | .text _ => 1
  | .line => 1
  | .line_ => 1
  | .hardline => 1
  | .append a b => a.size + b.size + 1
  | .nest _ d => d.size + 1
  | .group d => d.size + 1

def cmdsSize : List (Nat × RMode × Doc) → Nat
  | [] => 0
  | (_, _, d) :: z => d.size + cmdsSize z

def spacesStr (n : Nat) : String := String.mk (List.replicate n ' ')

/-- Modelled from the spec: the fitting test of the greedy two-mode layout
algorithm.  It scans the pending commands (the candidate group in flat mode
followed by the rest of the line in its recorded modes) until the line ends
(a break-mode line or hard line) or the remaining width is exceeded.  A hard
line inside the flattened candidate means the group cannot be flattened. -/
def fits : Nat → Nat → List (Nat × RMode × Doc) → Bool
  | 0, _, _ => false
  | _ + 1, _, [] => true
  | f + 1, rem, c :: z =>
    match c with
    | (_, _, .nil) => fits f rem z
    | (i, m, .append a b) => fits f rem ((i, m, a) :: (i, m, b) :: z)
    | (i, m, .nest j d) => fits f rem ((i + j, m, d) :: z)
    | (_, _, .text s) => if s.length ≤ rem then fits f (rem - s.length) z else false
    | (_, .flat, .line) => if 1 ≤ rem then fits f (rem - 1) z else false
    | (_, .flat, .line_) => fits f rem z
    | (_, .brk, .line) => true
    | (_, .brk, .line_) => true
    | (_, .flat, .hardline) => false
    | (_, .brk, .hardline) => true
    | (i, m, .group d) => fits f rem ((i, m, d) :: z)

/-- Modelled from the spec: the rendering loop of the layout algorithm.  A
group is flattened exactly when its flattened form, together with everything
already committed on the current line, fits in the remaining width. -/
def be : Nat → Nat → Nat → List (Nat × RMode × Doc) → String
  | 0, _, _, _ => ""
  | _ + 1, _, _, [] => ""
  | f + 1, w, k, c :: z =>
    match c with
    | (_, _, .nil) => be f w k z
    | (i, m, .append a b) => be f w k ((i, m, a) :: (i, m, b) :: z)
    | (i, m, .nest j d) => be f w k ((i + j, m, d) :: z)
    | (_, _, .text s) => s ++ be f w (k + s.length) z
    | (_, .flat, .line) => " " ++ be f w (k + 1) z
    | (_, .flat, .line_) => be f w k z
    | (i, .brk, .line) => "\n" ++ spacesStr i ++ be f w i z
    | (i, .brk, .line_) => "\n" ++ spacesStr i ++ be f w i z
    | (i, _, .hardline) => "\n" ++ spacesStr i ++ be f w i z
    | (i, .flat, .group d) => be f w k ((i, .flat, d) :: z)
    | (i, .brk, .group d) =>
      if fits (cmdsSize ((i, .flat, d) :: z) + 1) (w - k) ((i, .flat, d) :: z)
      then be f w k ((i, .flat, d) :: z)
      else be f w k ((i, .brk, d) :: z)

/-- Render a document at the given page width (the program emitter uses 80). -/
def renderDoc (w : Nat) (d : Doc) : String :=
  be (d.size + 1) w 0 [(0, .brk, d)]

/-- A document ends with `t` when it is `t` itself or is an `append` whose
right part ends with `t`.  Used to state that both branches of a rendered
conditional end in the same trailing tuple expression. -/
def Doc.EndsWith : Doc → Doc → Prop
  | d, t =>
    d = t ∨
      match d with
      | .append _ y => y.EndsWith t
      | _ => False

/-! ## String utilities

The identifier translator uses the external `regex` and `heck` crates; their
behaviour on the patterns fixed in the source is modelled here over character
lists so that everything kernel-computes. -/

/-- Left-to-right, non-overlapping replacement of the regex
`(U|I)\d{1,3}` by `${prefix}int${digits}` (first rewrite of
`translate_ident_str`). -/
def secretIntReplaceF : Nat → List Char → List Char
  | 0, l => l
  | _ + 1, [] => []
  | f + 1, c :: rest =>
    if c = 'U' ∨ c = 'I' then
      match rest with
      | d1 :: rest1 =>
        if d1.isDigit then
          match rest1 with
          | d2 :: rest2 =>
            if d2.isDigit then
              match rest2 with
              | d3 :: rest3 =>
                if d3.isDigit then
                  c :: 'i' :: 'n' :: 't' :: d1 :: d2 :: d3 :: secretIntReplaceF f rest3
                else c :: 'i' :: 'n' :: 't' :: d1 :: d2 :: secretIntReplaceF f rest2
              | [] => c :: 'i' :: 'n' :: 't' :: [d1, d2]
            else c :: 'i' :: 'n' :: 't' :: d1 :: secretIntReplaceF f rest1
          | [] => c :: 'i' :: 'n' :: 't' :: [d1]
        else c :: secretIntReplaceF f rest
      | [] => [c]
    else c :: secretIntReplaceF f rest

def secretIntReplace (l : List Char) : List Char := secretIntReplaceF (l.length + 1) l

/-- Left-to-right, non-overlapping replacement of `iint` by `int` (second,
case-sensitive rewrite of `translate_ident_str`). -/
def replaceIint : List Char → List Char
  | 'i' :: 'i' :: 'n' :: 't' :: rest => 'i' :: 'n' :: 't' :: replaceIint rest
  | c :: rest => c :: replaceIint rest
  | [] => []

/-- Word mode of the camel-case splitter (the `heck` crate's scanner). -/
inductive WordMode where
  | boundary
  | lower
  | upper
deriving DecidableEq

/-- Modelled from the spec: `heck`'s word splitter used by `to_snake_case`
(conversion to lowercase-underscore naming, §4.2).  Within a chunk of
alphanumeric characters, a word boundary falls after a lowercase-mode
character followed by an uppercase one, and before an uppercase character
that follows an uppercase run and precedes a lowercase one. -/
def splitCamel : WordMode → List Char → List Char → List (List Char)
  | _, acc, [] => [acc.reverse]
  | mode, acc, c :: rest =>
    match rest with
    | [] => [(c :: acc).reverse]
    | next :: _ =>
      let nextMode : WordMode :=
        if c.isLower then .lower else if c.isUpper then .upper else mode
      if nextMode = .lower ∧ next.isUpper then
        (c :: acc).reverse :: splitCamel .boundary [] rest
      else if mode = .upper ∧ c.isUpper ∧ next.isLower then
        acc.reverse :: splitCamel .boundary [c] rest
      else
        splitCamel nextMode (c :: acc) rest

/-- Split on non-alphanumeric characters, dropping the separators. -/
def splitNonAlnumAux : List Char → List Char → List (List Char)
  | acc, [] => [acc.reverse]
  | acc, c :: rest =>
    if c.isAlphanum then splitNonAlnumAux (c :: acc) rest
    else acc.reverse :: splitNonAlnumAux [] rest

def joinUnderscore : List (List Char) → List Char
  | [] => []
  | [w] => w
  | w :: rest => w ++ '_' :: joinUnderscore rest

/-- Modelled from the spec: `heck`'s `to_snake_case` — split into words,
lowercase each, join with underscores. -/
def toSnakeCase (l : List Char) : List Char :=
  joinUnderscore
    ((((splitNonAlnumAux [] l).flatMap (splitCamel .boundary [])).filter
        (fun w => w ≠ [])).map (List.map Char.toLower))

/-- Option-valued map over a list, failing when any element fails (the
effect of `?`/panic propagation when translating lists of subterms). -/
def optMap (g : α → Option β) : List α → Option (List β)
  | [] => some []
  | x :: xs =>
    match g x with
    | none => none
    | some y => (optMap g xs).map (y :: ·)

/-! ## Data model

Modelled from the spec: the AST of `rustspec.rs` (§3) as used by the
translator.  Spans are dropped; integer literal payloads are naturals. -/

inductive Ident where
  | Original (s : String)
  | Hacspec (id : Nat) (s : String)
deriving Repr, DecidableEq

inductive Borrowing where
  | Borrowed
  | Consumed
deriving Repr, DecidableEq

inductive Secrecy where
  | Secret
  | Public
deriving Repr, DecidableEq

inductive ArraySize where
  | Ident (s : String)
  | Integer (n : Nat)
deriving Repr, DecidableEq

inductive BaseTyp where
  | Unit
  | Bool
  | UInt8
  | Int8
  | UInt16
  | Int16
  | UInt32
  | Int32
  | UInt64
  | Int64
  | UInt128
  | Int128
  | Usize
  | Isize
  | Str
  | Seq (t : BaseTyp)
  | Array (size : ArraySize) (t : BaseTyp)
  | Named (id : Ident) (args : Option (List BaseTyp))
  | Variable (id : Nat)
  | Tuple (args : List BaseTyp)
  | NaturalInteger (secrecy : Secrecy) (modulo : String)
deriving Repr

/-- `Typ` is a borrowing flag paired with a base type. -/
abbrev Typ : Type := Borrowing × BaseTyp

inductive Literal where
  | Unit
  | Bool (b : Bool)
  | Int128 (x : Nat)
  | UInt128 (x : Nat)
  | Int64 (x : Nat)
  | UInt64 (x : Nat)
  | Int32 (x : Nat)
  | UInt32 (x : Nat)
  | Int16 (x : Nat)
  | UInt16 (x : Nat)
  | Int8 (x : Nat)
  | UInt8 (x : Nat)
  | Isize (x : Nat)
  | Usize (x : Nat)
  | Str (s : String)
deriving Repr, DecidableEq

/-- The binary operators of `rustc_ast::ast::BinOpKind`. -/
inductive BinOpKind where
  | Add
  | Sub
  | Mul
  | Div
  | Rem
  | And
  | Or
  | BitXor
  | BitAnd
  | BitOr
  | Shl
  | Shr
  | Eq
  | Lt
  | Le
  | Ne
  | Ge
  | Gt
deriving Repr, DecidableEq

inductive UnOpKind where
  | Not
  | Neg
deriving Repr, DecidableEq

inductive Pattern where
  | IdentPat (x : Ident)
  | WildCard
  | Tuple (pats : List Pattern)
deriving Repr

inductive Expression where
  | Binary (op : BinOpKind) (e1 e2 : Expression) (opTyp : Option Typ)
  | Unary (op : UnOpKind) (e : Expression) (opTyp : Option Typ)
  | Lit (l : Literal)
  | Tuple (es : List Expression)
  | Named (id : Ident)
  | FuncCall (pfx : Option BaseTyp) (name : Ident) (args : List Expression)
  | MethodCall (selArg : Expression) (selTyp : Option Typ) (name : Ident)
      (args : List Expression)
  | ArrayIndex (x : Ident) (e : Expression)
  | NewArray (args : List Expression)
  | IntegerCasting
deriving Repr

mutual

inductive Statement where
  | LetBinding (pat : Pattern) (typ : Option Typ) (e : Expression)
  | Reassignment (x : Ident) (e : Expression)
  | ArrayUpdate (x : Ident) (e1 e2 : Expression)
  | ReturnExp (e : Expression)
  | Conditional (cond : Expression) (b1 : Block) (b2 : Option Block)
      (mutated : Option MutatedInfo)
  | ForLoop (x : Ident) (e1 e2 : Expression) (b : Block)

inductive Block where
  | mk (stmts : List Statement) (mutated : Option MutatedInfo)
      (return_typ : Option Typ)

/-- The mutated-variable annotation computed by the upstream type checker:
the ordered list of mutated variables and the synthesized trailing statement
that evaluates to their tuple. -/
inductive MutatedInfo where
  | mk (vars : List Ident) (stmt : Statement)

end

def Block.stmts : Block → List Statement
  | .mk s _ _ => s

def Block.mutated : Block → Option MutatedInfo
  | .mk _ m _ => m

def Block.return_typ : Block → Option Typ
  | .mk _ _ r => r

def MutatedInfo.vars : MutatedInfo → List Ident
  | .mk v _ => v

def MutatedInfo.stmt : MutatedInfo → Statement
  | .mk _ s => s

/-- A function signature: typed parameters and return type. -/
structure FuncSig where
  args : List (Ident × Typ)
  ret : BaseTyp

inductive Item where
  | FnDecl (f : Ident) (sig : FuncSig) (b : Block)
  | ArrayDecl (name : Ident) (size : Expression) (cell_t : BaseTyp)
  | ConstDecl (name : Ident) (ty : BaseTyp) (e : Expression)
  | NaturalIntegerDecl (nat_name canvas_name : Ident) (secrecy : Secrecy)
      (canvas_size : Expression) (modulo : String)

structure Program where
  items : List Item

/-- Modelled from the spec: the classification of a `TypeDict` entry
(`typechecker.rs`). -/
inductive DictEntry where
  | Alias
  | Array
  | NaturalInteger
deriving Repr, DecidableEq

/-- Modelled from the spec: the read-only alias-resolution table mapping a
named type's string key to its underlying type and classification.  The
`HashMap` is modelled as an association list queried by `lookup`. -/
def TypeDict : Type := List (String × Typ × DictEntry)

def lookup : TypeDict → String → Option (Typ × DictEntry)
  | [], _ => none
  | (k, v) :: rest, s => if k = s then some v else lookup rest s

/-! ## Identifier, literal and type translation -/

def SEQ_MODULE : String := "seq"

/-- String computation of `translate_ident_str`: the two regex rewrites,
snake-case conversion, and the reserved-word escape of `new`. -/
def translate_ident_str_s (s : String) : String :=
  let l := secretIntReplace s.data
  let l := replaceIint l
  let snake := toSnakeCase l
  if String.mk snake = "new" then "new_" else String.mk snake

def translate_ident_str (s : String) : Doc := .text (translate_ident_str_s s)

/-- String computation of `translate_ident`: hygienic identifiers are
disambiguated by suffixing their numeric id. -/
def translate_ident_s : Ident → String
  | .Original s => translate_ident_str_s s
  | .Hacspec id s => translate_ident_str_s (s ++ "_" ++ toString id)

def translate_ident (x : Ident) : Doc := .text (translate_ident_s x)

def space : Doc := .text " "

/-- `RcDoc::intersperse`. -/
def intersperse (sep : Doc) : List Doc → Doc
  | [] => .nil
  | [d] => d
  | d :: rest => d.append (sep.append (intersperse sep rest))

/-- `RcDoc::concat`. -/
def docConcat (l : List Doc) : Doc := l.foldr Doc.append Doc.nil

def make_let_binding (pat : Doc) (typ : Option Doc) (expr : Doc)
    (toplevel : Bool) : Doc :=
  ((((Doc.text "let").append space).append
      ((pat.append
          (match typ with
           | none => Doc.nil
           | some tau => ((space.append (Doc.text ":")).append space).append tau)).group)).append
        space).append (Doc.text "=")
    |>.group
    |>.append (Doc.line.append expr.group)
    |>.nest 2
    |>.append
      (if toplevel then Doc.nil else Doc.line.append (Doc.text "in"))

def make_tuple (args : List Doc) : Doc :=
  ((Doc.text "(").append
      (((Doc.line_.append
            (intersperse ((Doc.text ",").append Doc.line) args)).group).nest 2)
    |>.append Doc.line_
    |>.append (Doc.text ")")).group

def make_list (args : List Doc) : Doc :=
  ((Doc.text "[").append
      (((Doc.line_.append
            (intersperse ((Doc.text ";").append Doc.line) args)).group).nest 2)
    |>.append Doc.line_
    |>.append (Doc.text "]")).group

def make_typ_tuple (args : List Doc) : Doc :=
  ((Doc.text "(").append
      (((Doc.line_.append
            (intersperse
              ((space.append (Doc.text "&")).append Doc.line) args)).group).nest 2)
    |>.append Doc.line_
    |>.append (Doc.text ")")).group

def make_paren (e : Doc) : Doc :=
  ((Doc.text "(").append (((Doc.line_.append e).group).nest 2)
    |>.append (Doc.text ")")).group

def make_begin_paren (e : Doc) : Doc :=
  (Doc.text "begin").append (((Doc.line.append e).group).nest 2)
    |>.append Doc.line
    |>.append (Doc.text "end")

/-- Hex rendering of a natural, as Rust's `{:#x}` format. -/
def hexLit (n : Nat) : String := "0x" ++ String.mk (Nat.toDigits 16 n)

def translate_literal : Literal → Doc
  | .Unit => .text "()"
  | .Bool true => .text "true"
  | .Bool false => .text "false"
  | .Int128 x => .text ("pub_i128 " ++ hexLit x)
  | .UInt128 x => .text ("pub_u128 " ++ hexLit x)
  | .Int64 x => .text ("pub_i64 " ++ hexLit x)
  | .UInt64 x => .text ("pub_u64 " ++ hexLit x)
  | .Int32 x => .text ("pub_i32 " ++ hexLit x)
  | .UInt32 x => .text ("pub_u32 " ++ hexLit x)
  | .Int16 x => .text ("pub_i16 " ++ hexLit x)
  | .UInt16 x => .text ("pub_u16 " ++ hexLit x)
  | .Int8 x => .text ("pub_i8 " ++ hexLit x)
  | .UInt8 x => .text ("pub_u8 " ++ hexLit x)
  | .Isize x => .text ("isize " ++ toString x)
  | .Usize x => .text ("usize " ++ toString x)
  | .Str m => .text ("\"" ++ m ++ "\"")

/-- `translate_base_typ`, with fuel for the nested recursion.  `none` is
exhausted fuel only (the source function is total). -/
def translate_base_typ : Nat → BaseTyp → Option Doc
  | 0, _ => none
  | f + 1, t =>
    match t with
    | .Unit => some (.text "unit")
    | .Bool => some (.text "bool")
    | .UInt8 => some (.text "pub_uint8")
    | .Int8 => some (.text "pub_int8")
    | .UInt16 => some (.text "pub_uin16")
    | .Int16 => some (.text "pub_int16")
    | .UInt32 => some (.text "pub_uint32")
    | .Int32 => some (.text "pub_int32")
    | .UInt64 => some (.text "pub_uint64")
    | .Int64 => some (.text "pub_int64")
    | .UInt128 => some (.text "pub_uint128")
    | .Int128 => some (.text "pub_int128")
    | .Usize => some (.text "uint_size")
    | .Isize => some (.text "int_size")
    | .Str => some (.text "string")
    | .Seq tau =>
      match translate_base_typ f tau with
      | none => none
      | some taud => some ((((Doc.text "seq").append space).append taud).group)
    | .Array size tau =>
      match translate_base_typ f tau with
      | none => none
      | some taud =>
        some
          (((((((Doc.text "lseq").append space).append taud).append space).append
              (Doc.text
                (match size with
                 | .Ident id => id
                 | .Integer i => toString i))).group))
    | .Named ident args =>
      match args with
      | none => some ((translate_ident ident).append Doc.nil)
      | some args =>
        match optMap (fun a => translate_base_typ f a) args with
        | none => none
        | some argds =>
          some
            ((translate_ident ident).append
              (space.append (intersperse space argds)))
    | .Variable id => some (.text ("'t" ++ toString id))
    | .Tuple args =>
      match optMap (fun a => translate_base_typ f a) args with
      | none => none
      | some argds => some (make_typ_tuple argds)
    | .NaturalInteger _ modulo =>
      some
        (((Doc.text "nat_mod").append space).append (Doc.text ("0x" ++ modulo)))

def translate_typ (f : Nat) (t : Typ) : Option Doc := translate_base_typ f t.2

/-! ## Operator resolution -/

/-- Result of `translate_binop`: a symbol, a Rust panic
(`panic!`/`unimplemented!`), or exhausted chasing fuel. -/
inductive BinopResult where
  | ok (s : String)
  | panicked
  | outOfFuel
deriving Repr, DecidableEq

/-- The structural (second) `match` of `translate_binop`, reached when the
operand type is not a named type resolvable through the dictionary.  The
source matches on `(op, typ)` with per-operator specific arms; it is
transcribed here operator-first, arm order preserved within each operator. -/
def translate_binop_structural (op : BinOpKind) (t : BaseTyp) : String :=
  match op with
  | .Sub =>
    match t with
    | .Usize => "-"
    | .Isize => "-"
    | .Seq _ => "`seq_minus`"
    | .Array _ _ => "`seq_minus`"
    | _ => "-."
  | .Add =>
    match t with
    | .Usize => "+"
    | .Isize => "+"
    | .Seq _ => "`seq_add`"
    | .Array _ _ => "`seq_add`"
    | _ => "+."
  | .Mul =>
    match t with
    | .Usize => "*"
    | .Isize => "*"
    | .Seq _ => "`seq_mul`"
    | .Array _ _ => "`seq_mul`"
    | _ => "*."
  | .Div =>
    match t with
    | .Usize => "/"
    | .Isize => "/"
    | .Seq _ => "`seq_div`"
    | .Array _ _ => "`seq_div`"
    | _ => "/."
  | .Rem => "%."
  | .BitXor =>
    match t with
    | .Seq _ => "`seq_xor`"
    | .Array _ _ => "`seq_xor`"
    | _ => "^."
  | .BitAnd =>
    match t with
    | .Seq _ => "`seq_and`"
    | .Array _ _ => "`seq_and`"
    | _ => "&."
  | .BitOr =>
    match t with
    | .Seq _ => "`seq_or`"
    | .Array _ _ => "`seq_or`"
    | _ => "|."
  | .Shl => "`shift_left`"
  | .Shr => "`shift_right`"
  | .Lt => "<."
  | .Le => "<=."
  | .Ge => ">=."
  | .Gt => ">."
  | .Ne => "!="
  | .Eq => "=="
  | .And => "&&"
  | .Or => "||"

/-- `translate_binop`: a named operand type is looked up in the dictionary;
a `NaturalInteger` entry maps the five arithmetic operators to plain infix
symbols and panics (`unimplemented!`) on every other operator; `Array` and
`Alias` entries recurse on the underlying type (alias chasing, bounded here
by fuel); an absent entry falls through to the structural dispatch on the
named type itself.  Hygienic identifiers in type position panic. -/
def translate_binop : Nat → BinOpKind → Typ → TypeDict → BinopResult
  | 0, _, _, _ => .outOfFuel
  | fuel + 1, op, op_typ, typ_dict =>
    match op_typ.2 with
    | .Named ident _ =>
      match ident with
      | .Original i =>
        match lookup typ_dict i with
        | some (_, .NaturalInteger) =>
          match op with
          | .Sub => .ok "-"
          | .Add => .ok "+"
          | .Mul => .ok "*"
          | .Div => .ok "/"
          | .Rem => .ok "%"
          | _ => .panicked
        | some (inner_ty, .Array) => translate_binop fuel op inner_ty typ_dict
        | some (inner_ty, .Alias) => translate_binop fuel op inner_ty typ_dict
        | none => .ok (translate_binop_structural op op_typ.2)
      | .Hacspec _ _ => .panicked
    | _ => .ok (translate_binop_structural op op_typ.2)

def translate_unop (op : UnOpKind) (_op_typ : Typ) : Doc :=
  match op with
  | .Not => .text "~"
  | .Neg => .text "-"

def translate_pattern : Nat → Pattern → Option Doc
  | 0, _ => none
  | _ + 1, .IdentPat x => some (translate_ident x)
  | _ + 1, .WildCard => some (.text "_")
  | f + 1, .Tuple pats =>
    match optMap (fun p => translate_pattern f p) pats with
    | none => none
    | some ds => some (make_tuple ds)

/-! ## Call-name resolution -/

/-- The `FuncPrefix` classification of the source (the word is renamed here
for the development's linting conventions). -/
inductive FuncHead where
  | Regular
  | Array (size : ArraySize)
  | NatMod (modulo : String)
deriving Repr, DecidableEq

/-- `translate_prefix_for_func_name` of the source (renamed here): resolve
the receiver/namespace type of a call to a module-name string and a
classification, chasing dictionary entries.  `none` models the source's
panics (`Bool`, `Unit`, `Variable`, `Tuple`, hygienic names) and exhausted
fuel. -/
def translate_head_for_func_name : Nat → BaseTyp → TypeDict →
    Option (String × FuncHead)
  | 0, _, _ => none
  | fuel + 1, t, typ_dict =>
    match t with
    | .Bool => none
    | .Unit => none
    | .UInt8 => some ("int", .Regular)
    | .Int8 => some ("int", .Regular)
    | .UInt16 => some ("int", .Regular)
    | .Int16 => some ("int", .Regular)
    | .UInt32 => some ("int", .Regular)
    | .Int32 => some ("int", .Regular)
    | .UInt64 => some ("int", .Regular)
    | .Int64 => some ("int", .Regular)
    | .UInt128 => some ("int", .Regular)
    | .Int128 => some ("int", .Regular)
    | .Usize => some ("int", .Regular)
    | .Isize => some ("int", .Regular)
    | .Str => some ("string", .Regular)
    | .Seq _ => some (SEQ_MODULE, .Regular)
    | .Array size _ => some (SEQ_MODULE, .Array size)
    | .Named ident _ =>
      match ident with
      | .Original name =>
        match lookup typ_dict name with
        | some (alias_typ, .Array) =>
          translate_head_for_func_name fuel alias_typ.2 typ_dict
        | some (alias_typ, .Alias) =>
          translate_head_for_func_name fuel alias_typ.2 typ_dict
        | some (alias_typ, .NaturalInteger) =>
          translate_head_for_func_name fuel alias_typ.2 typ_dict
        | none => some (translate_ident_str_s name, .Regular)
      | .Hacspec _ _ => none
    | .Variable _ => none
    | .Tuple _ => none
    | .NaturalInteger _ modulo => some ("nat", .NatMod modulo)

/-- `translate_func_name`: with no type head, a secret-integer constructor
name becomes the classification operation `secret`; with a type head, the
call becomes `<module>_<name>`, with the array size appended for the known
parametrized sequence constructors and the element type appended for
sequence receivers. -/
def translate_func_name (fuel : Nat) (pfx : Option BaseTyp) (name : Ident)
    (typ_dict : TypeDict) : Option Doc :=
  match pfx with
  | none =>
    let n := translate_ident_s name
    match n with
    | "uint128" => some (.text "secret")
    | "uint64" => some (.text "secret")
    | "uint32" => some (.text "secret")
    | "uint16" => some (.text "secret")
    | "uint8" => some (.text "secret")
    | "int128" => some (.text "secret")
    | "int64" => some (.text "secret")
    | "int32" => some (.text "secret")
    | "int16" => some (.text "secret")
    | "int8" => some (.text "secret")
    | _ => some (.text n)
  | some pfxTyp =>
    match translate_head_for_func_name fuel pfxTyp typ_dict with
    | none => none
    | some (module_name, head_info) =>
      let type_arg : Option (Option Doc) :=
        match pfxTyp with
        | .Seq tau => (translate_base_typ fuel tau).map some
        | .Array _ tau => (translate_base_typ fuel tau).map some
        | _ => some none
      match type_arg with
      | none => none
      | some type_arg =>
        let func_ident := translate_ident_s name
        let size_arg : Option Doc :=
          if (module_name = "seq" ∧ func_ident = "new_") ∨
              (module_name = "seq" ∧ func_ident = "from_slice") ∨
              (module_name = "seq" ∧ func_ident = "from_slice_range") then
            match head_info with
            | .Array (.Ident s) => some (space.append (translate_ident_str s))
            | .Array (.Integer i) => some (space.append (.text (toString i)))
            | .Regular => some Doc.nil
            | .NatMod _ => none
          else some Doc.nil
        match size_arg with
        | none => none
        | some size_arg =>
          some
            (((((Doc.text module_name).append (Doc.text "_")).append
                  (Doc.text func_ident)).append size_arg).append
              (match type_arg with
               | none => Doc.nil
               | some arg => (space.append (Doc.text "#")).append arg))

/-! ## Expression translation -/

def translate_expression : Nat → Expression → TypeDict → Option Doc
  | 0, _, _ => none
  | fuel + 1, e, typ_dict =>
    match e with
    | .Binary op e1 e2 op_typ =>
      match op_typ with
      | none => none
      | some t =>
        match translate_expression fuel e1 typ_dict with
        | none => none
        | some d1 =>
          match translate_binop fuel op t typ_dict with
          | .ok sym =>
            match translate_expression fuel e2 typ_dict with
            | none => none
            | some d2 =>
              some
                (((((make_paren d1).append space).append (Doc.text sym)).append
                      space).append (make_paren d2)).group
          | _ => none
    | .Unary op e1 op_typ =>
      match op_typ with
      | none => none
      | some t =>
        match translate_expression fuel e1 typ_dict with
        | none => none
        | some d1 =>
          some ((((translate_unop op t).append space).append (make_paren d1)).group)
    | .Lit l => some (translate_literal l)
    | .Tuple es =>
      match optMap (fun x => translate_expression fuel x typ_dict) es with
      | none => none
      | some ds => some (make_tuple ds)
    | .Named p => some (translate_ident p)
    | .FuncCall pfx name args =>
      match translate_func_name fuel pfx name typ_dict with
      | none => none
      | some fd =>
        match optMap (fun a => translate_expression fuel a typ_dict) args with
        | none => none
        | some ads =>
          some
            (fd.append
              (docConcat (ads.map (fun ad => space.append (make_paren ad)))))
    | .MethodCall sel_arg sel_typ fname args =>
      match translate_func_name fuel (sel_typ.map (fun t => t.2)) fname typ_dict with
      | none => none
      | some fd =>
        match translate_expression fuel sel_arg typ_dict with
        | none => none
        | some sd =>
          match optMap (fun a => translate_expression fuel a typ_dict) args with
          | none => none
          | some ads =>
            some
              ((fd.append (space.append (make_paren sd))).append
                (docConcat (ads.map (fun ad => space.append (make_paren ad)))))
    | .ArrayIndex x e2 =>
      match translate_expression fuel e2 typ_dict with
      | none => none
      | some d2 =>
        some
          (((((Doc.text "array_index").append space).append
                (make_paren (translate_ident x))).append space).append
            (make_paren d2))
    | .NewArray args =>
      match optMap (fun a => translate_expression fuel a typ_dict) args with
      | none => none
      | some ds =>
        some
          (((Doc.text (SEQ_MODULE ++ "_from_list")).append space).append
            (make_list ds))
    | .IntegerCasting => none

/-! ## Statement, block, item and program translation -/

/-- Assembly of a translated block from its already-translated (and grouped)
statement documents: statements joined by hard lines, with the extra unit
literal appended when the declared return type is unit and the caller did
not ask to omit it.  A missing return type is the source's panic. -/
def block_doc (stmt_docs : List Doc) (return_typ : Option Typ)
    (omit_extra_unit : Bool) : Option Doc :=
  match return_typ, omit_extra_unit with
  | none, _ => none
  | some (Borrowing.Consumed, .Unit), false =>
    some
      ((intersperse Doc.hardline stmt_docs).append
        (Doc.hardline.append (Doc.text "()")))
  | some _, _ => some ((intersperse Doc.hardline stmt_docs).append Doc.nil)

/-- The document of the translated `if` expression of a conditional: the
condition, the `begin`/`end`-wrapped then branch, and the already assembled
else part. -/
def cond_doc (condd thenD elsePart : Doc) : Doc :=
  ((((((Doc.text "if").append space).append condd).append space).append
        (Doc.text "then")).append space)
    |>.append (make_begin_paren thenD)
    |>.append elsePart

def else_doc (elseBody : Doc) : Doc :=
  ((space.append (Doc.text "else")).append space).append
    (make_begin_paren elseBody)

/-- The document of the translated `foldi` loop expression. -/
def loop_doc (d1 d2 closure_tuple bodyD tailD mut_tuple : Doc) : Doc :=
  ((((((((((((((Doc.text "foldi").append space).append (make_paren d1)).append
      space).append (make_paren d2)).append space).append
      (Doc.text "(fun")).append space).append closure_tuple).append
      space).append (Doc.text "->")).append Doc.line).append bodyD).append
      Doc.hardline).append tailD
    |>.append (Doc.text ")")
    |>.group
    |>.nest 2
    |>.append Doc.line
    |>.append mut_tuple

/-- `translate_statement` (and, inlined, `translate_block`): the whole match
result is grouped, as in the source.  `none` models the source's panics
(missing mutated-variable annotation, missing block return type, panics in
subterm translation) and exhausted fuel. -/
def translate_statement : Nat → Statement → TypeDict → Option Doc
  | 0, _, _ => none
  | fuel + 1, s, typ_dict =>
    (match s with
     | .LetBinding pat typ e =>
       match translate_pattern fuel pat with
       | none => none
       | some pd =>
         match
           (match typ with
            | none => some none
            | some t => (translate_typ fuel t).map some) with
         | none => none
         | some td =>
           match translate_expression fuel e typ_dict with
           | none => none
           | some ed => some (make_let_binding pd td ed false)
     | .Reassignment x e =>
       match translate_expression fuel e typ_dict with
       | none => none
       | some ed => some (make_let_binding (translate_ident x) none ed false)
     | .ArrayUpdate x e1 e2 =>
       match translate_expression fuel e1 typ_dict with
       | none => none
       | some d1 =>
         match translate_expression fuel e2 typ_dict with
         | none => none
         | some d2 =>
           some
             (make_let_binding (translate_ident x) none
               (((((((Doc.text "array_upd").append space).append
                     (translate_ident x)).append space).append
                   (make_paren d1)).append space).append (make_paren d2))
               false)
     | .ReturnExp e => translate_expression fuel e typ_dict
     | .Conditional cond b1 b2 mutated =>
       match mutated with
       | none => none
       | some mutated_info =>
         match translate_expression fuel cond typ_dict with
         | none => none
         | some condd =>
           match
             (match optMap
                 (fun st => (translate_statement fuel st typ_dict).map Doc.group)
                 b1.stmts with
              | none => none
              | some ds => block_doc ds b1.return_typ true) with
           | none => none
           | some b1d =>
             match translate_statement fuel mutated_info.stmt typ_dict with
             | none => none
             | some taild =>
               match
                 (match b2 with
                  | none => some (else_doc taild)
                  | some bb =>
                    match
                      (match optMap
                          (fun st =>
                            (translate_statement fuel st typ_dict).map Doc.group)
                          bb.stmts with
                       | none => none
                       | some ds => block_doc ds bb.return_typ true) with
                    | none => none
                    | some b2d =>
                      some (else_doc ((b2d.append Doc.hardline).append taild))) with
               | none => none
               | some elsePart =>
                 some
                   (make_let_binding
                     (make_tuple (mutated_info.vars.map translate_ident)) none
                     (cond_doc condd ((b1d.append Doc.hardline).append taild)
                       elsePart)
                     false)
     | .ForLoop x e1 e2 b =>
       match b.mutated with
       | none => none
       | some mutated_info =>
         match translate_expression fuel e1 typ_dict with
         | none => none
         | some d1 =>
           match translate_expression fuel e2 typ_dict with
           | none => none
           | some d2 =>
             match
               (match optMap
                   (fun st => (translate_statement fuel st typ_dict).map Doc.group)
                   b.stmts with
                | none => none
                | some ds => block_doc ds b.return_typ true) with
             | none => none
             | some bd =>
               match translate_statement fuel mutated_info.stmt typ_dict with
               | none => none
               | some taild =>
                 let mut_tuple :=
                   make_tuple (mutated_info.vars.map translate_ident)
                 let closure_tuple :=
                   make_tuple [translate_ident x, mut_tuple]
                 some
                   (make_let_binding mut_tuple none
                     (loop_doc d1 d2 closure_tuple bd taild mut_tuple) false)).map
      Doc.group

/-- `translate_block`: statements joined by hard lines (each one grouped),
with the extra trailing unit when required. -/
def translate_block (fuel : Nat) (b : Block) (omit_extra_unit : Bool)
    (typ_dict : TypeDict) : Option Doc :=
  match optMap (fun st => (translate_statement fuel st typ_dict).map Doc.group)
      b.stmts with
  | none => none
  | some ds => block_doc ds b.return_typ omit_extra_unit

/-- `translate_item`. -/
def translate_item (fuel : Nat) (i : Item) (typ_dict : TypeDict) : Option Doc :=
  match i with
  | .FnDecl f sig b =>
    match
      (if sig.args.length > 0 then
        match
          optMap
            (fun (a : Ident × Typ) =>
              match translate_typ fuel a.2 with
              | none => none
              | some td =>
                some
                  (make_paren
                    (((((translate_ident a.1).append space).append
                        (Doc.text ":")).append space).append td)))
            sig.args with
        | none => none
        | some ds => some (intersperse Doc.line ds)
      else some (Doc.text "()")) with
    | none => none
    | some argsDoc =>
      match translate_base_typ fuel sig.ret with
      | none => none
      | some retd =>
        match translate_block fuel b false typ_dict with
        | none => none
        | some bd =>
          some
            (make_let_binding
              (((((translate_ident f).append Doc.line).append argsDoc).append
                  Doc.line).append
                ((((Doc.text ":").append space).append retd).group))
              none
              ((bd.append
                  (match sig.ret with
                   | .Unit => Doc.hardline.append (Doc.text "()")
                   | _ => Doc.nil)).group)
              true)
  | .ArrayDecl name size cell_t =>
    match translate_base_typ fuel cell_t with
    | none => none
    | some ct =>
      match translate_expression fuel size typ_dict with
      | none => none
      | some sd =>
        some
          ((((((Doc.text "type").append space).append
                (translate_ident name)).append space).append
              (Doc.text "=")).group
            |>.append
              ((((((Doc.line.append (Doc.text "lseq")).append space).append
                    (make_paren ct)).append space).append
                  (make_paren sd)).group.nest 2))
  | .ConstDecl name ty e =>
    match translate_base_typ fuel ty with
    | none => none
    | some tyd =>
      match translate_expression fuel e typ_dict with
      | none => none
      | some ed => some (make_let_binding (translate_ident name) (some tyd) ed true)
  | .NaturalIntegerDecl nat_name canvas_name _secrecy canvas_size modulo =>
    match translate_base_typ fuel .UInt8 with
    | none => none
    | some u8d =>
      match translate_expression fuel canvas_size typ_dict with
      | none => none
      | some csd =>
        some
          (((((((Doc.text "type").append space).append
                  (translate_ident canvas_name)).append space).append
              (Doc.text "=")).group
            |>.append
              ((((((Doc.line.append (Doc.text "lseq")).append space).append
                    (make_paren u8d)).append space).append
                  (make_paren csd)).group.nest 2)
            |>.append Doc.hardline
            |>.append Doc.hardline
            |>.append
              ((((((Doc.text "type").append space).append
                      (translate_ident nat_name)).append space).append
                  (Doc.text "=")).group
                |>.append
                  ((((Doc.line.append (Doc.text "nat_mod")).append space).append
                      (Doc.text ("0x" ++ modulo))).group.nest 2))))

/-- `translate_program`: items in declaration order, each followed by two
hard line breaks. -/
def translate_program (fuel : Nat) (p : Program) (typ_dict : TypeDict) :
    Option Doc :=
  match optMap (fun i => translate_item fuel i typ_dict) p.items with
  | none => none
  | some ds =>
    some
      (docConcat
        (ds.map (fun d => (d.append Doc.hardline).append Doc.hardline)))

/-! ## Program emitter

The file-system interaction of `translate_and_write_to_file` is modelled by
two environment parameters: the outcome of `File::create` and whether writes
to the created file succeed.  The function's observable behaviour is a
`WriteOutcome`. -/

def isAsciiWhite (c : Char) : Bool :=
  c = ' ' ∨ c = '\t' ∨ c = '\n' ∨ c = '\r'

/-- `str::trim`. -/
def trimStr (s : String) : String :=
  String.mk (((s.data.dropWhile isAsciiWhite).reverse.dropWhile isAsciiWhite).reverse)

/-- `Path::file_stem`: the last path component with its final extension
removed. -/
def file_stem (s : String) : String :=
  let comp := (s.data.reverse.takeWhile (fun c => c ≠ '/')).reverse
  let rev := comp.reverse
  if rev.contains '.' then
    let stemRev := (rev.dropWhile (fun c => c ≠ '.')).drop 1
    if stemRev = [] then String.mk comp else String.mk stemRev.reverse
  else String.mk comp

/-- The fixed module header written before the rendered program. -/
def module_header (module_name : String) : String :=
  "module " ++ module_name ++ "\n\n" ++
    "#set-options \"--fuel 0 --ifuel 1 --z3rlimit 15\"\n\n" ++
    "open Hacspec.Lib\nopen FStar.Mul\n\n"

inductive WriteOutcome where
  | diagnostic (msg : String)
  | panicked
  | wrote (content : String)
deriving Repr, DecidableEq

/-- `translate_and_write_to_file`: a failed `File::create` is reported as a
session diagnostic naming the (trimmed) artifact path and the underlying
I/O error, and the function returns without writing; a failed `write!` is an
`unwrap` panic; otherwise the header and the 80-column rendering of the
translated program are written. -/
def translate_and_write_to_file (fuel : Nat) (createResult : Except String Unit)
    (writesSucceed : Bool) (file : String) (p : Program) (typ_dict : TypeDict) :
    WriteOutcome :=
  let file := trimStr file
  match createResult with
  | .error why =>
    .diagnostic ("Unable to write to outuput file " ++ file ++ ": \"" ++ why ++ "\"")
  | .ok _ =>
    if writesSucceed = false then .panicked
    else
      match translate_program fuel p typ_dict with
      | none => .panicked
      | some d => .wrote (module_header (file_stem file) ++ renderDoc 80 d)

/-- The emitted text of a successful run, as a function of the input. -/
def emitted_text (fuel : Nat) (file : String) (p : Program)
    (typ_dict : TypeDict) : Option String :=
  (translate_program fuel p typ_dict).map
    (fun d => module_header (file_stem (trimStr file)) ++ renderDoc 80 d)

/-! ## Auxiliary definitions and lemmas for the claims -/

/-- Fixed symbols of the comparison, equality and boolean operators. -/
def cmp_bool_sym : BinOpKind → Option String
  | .Lt => some "<."
  | .Le => some "<=."
  | .Ge => some ">=."
  | .Gt => some ">."
  | .Ne => some "!="
  | .Eq => some "=="
  | .And => some "&&"
  | .Or => some "||"
  | _ => none

/-- The dotted-suffix operator family for arithmetic and bitwise operators. -/
def dotted_sym : BinOpKind → Option String
  | .Sub => some "-."
  | .Add => some "+."
  | .Mul => some "*."
  | .Div => some "/."
  | .Rem => some "%."
  | .BitXor => some "^."
  | .BitAnd => some "&."
  | .BitOr => some "|."
  | _ => none

/-- Chasing the operand type through the dictionary (within fuel) never
reaches a NaturalInteger entry or a hygienic name. -/
def cmp_safe : Nat → Typ → TypeDict → Bool
  | 0, _, _ => false
  | f + 1, t, d =>
    match t.2 with
    | .Named (.Original i) _ =>
      match lookup d i with
      | some (inner, .Alias) => cmp_safe f inner d
      | some (inner, .Array) => cmp_safe f inner d
      | some (_, .NaturalInteger) => false
      | none => true
    | .Named (.Hacspec _ _) _ => false
    | _ => true

lemma structural_cmp (op : BinOpKind) (s : String) (t : BaseTyp)
    (h : cmp_bool_sym op = some s) : translate_binop_structural op t = s := by
  cases op <;> simp_all [cmp_bool_sym, translate_binop_structural]

/-- A ranking function certifying that the dictionary's alias chains are
acyclic: each Alias/Array step to a name still present in the dictionary
strictly decreases the rank. -/
def rank_ok (r : String → Nat) (d : TypeDict) : Prop :=
  ∀ (n : String) (t : Typ) (e : DictEntry), lookup d n = some (t, e) →
    e = DictEntry.Alias ∨ e = DictEntry.Array →
    ∀ (b : Borrowing) (n2 : String) (args : Option (List BaseTyp)),
      t = (b, .Named (.Original n2) args) → (lookup d n2).isSome = true →
      r n2 < r n

/-- Fuel bound for resolving a binary operator at a type: one step more than
the rank of its head name when that name is in the dictionary. -/
def chase_bound (r : String → Nat) (d : TypeDict) (t : Typ) : Nat :=
  match t.2 with
  | .Named (.Original n) _ =>
    match lookup d n with
    | some _ => r n + 1
    | none => 0
  | _ => 0

lemma translate_binop_fuel (k : Nat) :
    ∀ (r : String → Nat) (d : TypeDict) (op : BinOpKind) (t : Typ),
      rank_ok r d → chase_bound r d t ≤ k →
      translate_binop (k + 1) op t d ≠ .outOfFuel := by
  induction k with
  | zero =>
    intro r d op t hr hb
    obtain ⟨b, bt⟩ := t
    cases bt <;> try simp [translate_binop]
    case Named id args =>
      cases id with
      | Hacspec i s => simp [translate_binop]
      | Original n =>
        cases hl : lookup d n with
        | none => simp [translate_binop, hl]
        | some v => simp [chase_bound, hl] at hb
  | succ k ih =>
    intro r d op t hr hb
    obtain ⟨b, bt⟩ := t
    cases bt <;> try simp [translate_binop]
    case Named id args =>
      cases id with
      | Hacspec i s => simp [translate_binop]
      | Original n =>
        cases hl : lookup d n with
        | none => simp [translate_binop, hl]
        | some v =>
          obtain ⟨inner, e⟩ := v
          have hrn : r n + 1 ≤ k + 1 := by simpa [chase_bound, hl] using hb
          cases e with
          | NaturalInteger => cases op <;> simp [translate_binop, hl]
          | Alias =>
            have hb2 : chase_bound r d inner ≤ k := by
              obtain ⟨bi, bti⟩ := inner
              cases bti <;> try (simp only [chase_bound]; omega)
              case Named id2 args2 =>
                cases id2 with
                | Hacspec i2 s2 => simp [chase_bound]
                | Original n2 =>
                  cases hl2 : lookup d n2 with
                  | none => simp [chase_bound, hl2]
                  | some v2 =>
                    have hlt := hr n (bi, .Named (.Original n2) args2) .Alias hl
                      (Or.inl rfl) bi n2 args2 rfl (by simp [hl2])
                    simp [chase_bound, hl2]
                    omega
            simpa [translate_binop, hl] using ih r d op inner hr hb2
          | Array =>
            have hb2 : chase_bound r d inner ≤ k := by
              obtain ⟨bi, bti⟩ := inner
              cases bti <;> try (simp only [chase_bound]; omega)
              case Named id2 args2 =>
                cases id2 with
                | Hacspec i2 s2 => simp [chase_bound]
                | Original n2 =>
                  cases hl2 : lookup d n2 with
                  | none => simp [chase_bound, hl2]
                  | some v2 =>
                    have hlt := hr n (bi, .Named (.Original n2) args2) .Array hl
                      (Or.inr rfl) bi n2 args2 rfl (by simp [hl2])
                    simp [chase_bound, hl2]
                    omega
            simpa [translate_binop, hl] using ih r d op inner hr hb2

/-! Concrete dictionaries used by witnesses and counterexamples. -/

def natDict : TypeDict :=
  [("foo", ((Borrowing.Consumed, BaseTyp.NaturalInteger .Public "ff"),
    DictEntry.NaturalInteger))]

def natNamed : Typ := (Borrowing.Consumed, .Named (.Original "foo") none)

def natUnder : Typ := (Borrowing.Consumed, .NaturalInteger .Public "ff")

def aliasDict : TypeDict :=
  [("t1", ((Borrowing.Consumed, BaseTyp.Named (.Original "t2") none),
      DictEntry.Alias)),
    ("t2", ((Borrowing.Consumed, BaseTyp.Usize), DictEntry.Alias))]

def rank0 : String → Nat := fun n => if n = "t1" then 1 else 0

lemma rank0_ok : rank_ok rank0 aliasDict := by
  intro n t e h he b n2 args ht h2
  simp only [aliasDict, lookup] at h
  split at h
  · next hn =>
    subst hn
    injection h with h
    rw [ht] at h
    injection h with h1 h2'
    injection h1 with hb2 hnamed
    injection hnamed with hid hargs
    injection hid with hn2
    subst hn2
    simp [rank0]
  · split at h
    · next hn =>
      subst hn
      injection h with h
      rw [ht] at h
      injection h with h1 h2'
      injection h1 with hb2 hnamed
      cases hnamed
    · cases h

-- C1 counterexample check
example :
    lookup natDict "foo" = some (natUnder, .NaturalInteger) ∧
    translate_binop 2 .Add natNamed natDict = .ok "+" ∧
    translate_binop 2 .Add natUnder natDict = .ok "+." ∧
    translate_binop 2 .Add natNamed natDict ≠ translate_binop 2 .Add natUnder natDict :=
  ⟨rfl, rfl, rfl, by decide⟩

/-! ## Claim C1 -/

/-- C1 counterexample: the named type "foo" has a NaturalInteger dictionary
entry whose underlying type is the natural-modular-integer type; addition is
valid on the underlying type, yet resolving + at "foo" yields "+" while
resolving it at the underlying type yields "+." — the claimed transparency
fails for NaturalInteger entries. -/
theorem natint_entry_not_transparent :
    lookup natDict "foo" = some (natUnder, .NaturalInteger) ∧
    translate_binop 2 .Add natNamed natDict = .ok "+" ∧
    translate_binop 2 .Add natUnder natDict = .ok "+." ∧
    translate_binop 2 .Add natNamed natDict ≠
      translate_binop 2 .Add natUnder natDict :=
  ⟨rfl, rfl, rfl, by decide⟩

/-- C1 (amended): alias transparency holds for Alias and Array dictionary
entries — resolving a binary operator at the named type is resolving it at
the entry's underlying type (one chasing step of fuel) — and for every
dictionary whose Alias/Array chains admit a strictly decreasing rank
(acyclicity) the chain resolution terminates: fuel above the chase bound
never runs out.  NaturalInteger entries are not transparent (see the
counterexample). -/
theorem alias_array_transparent_and_terminating :
    (∀ (f : Nat) (op : BinOpKind) (d : TypeDict) (n : String) (U : Typ)
        (e : DictEntry) (b : Borrowing) (args : Option (List BaseTyp)),
        lookup d n = some (U, e) → e = DictEntry.Alias ∨ e = DictEntry.Array →
        translate_binop (f + 1) op (b, .Named (.Original n) args) d =
          translate_binop f op U d) ∧
    (∀ (k : Nat) (r : String → Nat) (d : TypeDict) (op : BinOpKind) (t : Typ),
        rank_ok r d → chase_bound r d t ≤ k →
        translate_binop (k + 1) op t d ≠ .outOfFuel) := by
  constructor
  · intro f op d n U e b args hl he
    rcases he with rfl | rfl <;> simp [translate_binop, hl]
  · intro k r d op t hr hb
    exact translate_binop_fuel k r d op t hr hb

/-- Witness for the amended C1 at a concrete two-step alias chain. -/
theorem alias_array_transparent_and_terminating_witness :
    (lookup aliasDict "t1" =
        some ((Borrowing.Consumed, BaseTyp.Named (.Original "t2") none), .Alias) ∧
      translate_binop 3 .Add
          (Borrowing.Consumed, .Named (.Original "t1") none) aliasDict =
        translate_binop 2 .Add
          (Borrowing.Consumed, .Named (.Original "t2") none) aliasDict) ∧
    (rank_ok rank0 aliasDict ∧
      chase_bound rank0 aliasDict
          (Borrowing.Consumed, .Named (.Original "t1") none) ≤ 2 ∧
      translate_binop 3 .Add
          (Borrowing.Consumed, .Named (.Original "t1") none) aliasDict ≠
        .outOfFuel) := by
  refine ⟨⟨rfl, ?_⟩, ⟨rank0_ok, ?_, ?_⟩⟩
  · exact alias_array_transparent_and_terminating.1 2 .Add aliasDict "t1" _ _
      Borrowing.Consumed none rfl (Or.inl rfl)
  · decide
  · exact alias_array_transparent_and_terminating.2 2 rank0 aliasDict .Add _
      rank0_ok (by decide)

/-! ## Claim C2 -/

/-- C2 counterexample: resolving the comparison operator < at a named type
with a NaturalInteger dictionary entry panics (the `unimplemented!` branch)
instead of succeeding with the fixed symbol. -/
theorem cmp_on_natint_entry_panics :
    translate_binop 2 .Lt natNamed natDict = .panicked ∧
    translate_binop 2 .Lt natNamed natDict ≠ .ok "<." :=
  ⟨rfl, by decide⟩

/-- C2 (amended): comparison, equality and boolean operators resolve to
their fixed symbols for every operand type whose dictionary resolution does
not reach a NaturalInteger entry (or a hygienic name); at NaturalInteger
entries resolution is unimplemented and panics (see the counterexample). -/
theorem cmp_bool_ops_fixed_symbols :
    ∀ (f : Nat) (op : BinOpKind) (s : String) (t : Typ) (d : TypeDict),
      cmp_bool_sym op = some s → cmp_safe f t d = true →
      translate_binop f op t d = .ok s := by
  intro f
  induction f with
  | zero => intro op s t d hs hsafe; simp [cmp_safe] at hsafe
  | succ f ih =>
    intro op s t d hs hsafe
    obtain ⟨b, bt⟩ := t
    cases bt <;>
      try (simp only [translate_binop]
           exact congrArg BinopResult.ok (structural_cmp op s _ hs))
    case Named id args =>
      cases id with
      | Hacspec i s2 => simp [cmp_safe] at hsafe
      | Original n =>
        cases hl : lookup d n with
        | none =>
          simp only [translate_binop, hl]
          exact congrArg BinopResult.ok (structural_cmp op s _ hs)
        | some v =>
          obtain ⟨inner, e⟩ := v
          cases e with
          | NaturalInteger => simp [cmp_safe, hl] at hsafe
          | Alias =>
            have hsafe2 : cmp_safe f inner d = true := by
              simpa [cmp_safe, hl] using hsafe
            simpa [translate_binop, hl] using ih op s inner d hs hsafe2
          | Array =>
            have hsafe2 : cmp_safe f inner d = true := by
              simpa [cmp_safe, hl] using hsafe
            simpa [translate_binop, hl] using ih op s inner d hs hsafe2

/-- Witness for the amended C2: < resolves to "<." through a two-step alias
chain ending at a machine-size integer. -/
theorem cmp_bool_ops_fixed_symbols_witness :
    cmp_bool_sym .Lt = some "<." ∧
    cmp_safe 3 (Borrowing.Consumed, .Named (.Original "t1") none) aliasDict = true ∧
    translate_binop 3 .Lt
        (Borrowing.Consumed, .Named (.Original "t1") none) aliasDict = .ok "<." :=
  ⟨rfl, rfl,
    cmp_bool_ops_fixed_symbols 3 .Lt "<."
      (Borrowing.Consumed, .Named (.Original "t1") none) aliasDict rfl rfl⟩

/-! ## Claim C10 -/

/-- C10: for a named operand type whose name is absent from the dictionary,
binary operator resolution signals no error: it falls through to the
structural dispatch on the named type itself and yields the dotted-suffix
family symbol for every arithmetic and bitwise operator. -/
theorem absent_name_silent_dotted :
    ∀ (f : Nat) (op : BinOpKind) (s : String) (d : TypeDict) (n : String)
      (b : Borrowing) (args : Option (List BaseTyp)),
      lookup d n = none → dotted_sym op = some s →
      translate_binop (f + 1) op (b, .Named (.Original n) args) d = .ok s := by
  intro f op s d n b args hl hs
  have hst : translate_binop_structural op (.Named (.Original n) args) = s := by
    cases op <;> simp_all [dotted_sym, translate_binop_structural]
  simp [translate_binop, hl, hst]

/-- Witness for C10 at a name absent from the empty dictionary. -/
theorem absent_name_silent_dotted_witness :
    lookup ([] : TypeDict) "zz" = none ∧ dotted_sym .BitXor = some "^." ∧
    translate_binop 1 .BitXor
        (Borrowing.Consumed, .Named (.Original "zz") none) [] = .ok "^." :=
  ⟨rfl, rfl,
    absent_name_silent_dotted 0 .BitXor "^." [] "zz" Borrowing.Consumed none
      rfl rfl⟩

/-! ## Claim C6 -/

/-- C6: evaluating the identifier translation at the failing input "I8":
step (1) rewrites it to "Iint8", the case-sensitive "iint" fix-up does not
fire (the artifact is capitalized before snake-casing lowercases it), and
the final token "iint8" does contain the substring "iint", contradicting
the claim. -/
theorem translate_ident_str_I8_contains_iint :
    translate_ident_str_s "I8" = "iint8" ∧
    ∃ pre post, (translate_ident_str_s "I8").data = pre ++ "iint".data ++ post :=
  ⟨rfl, [], ['8'], rfl⟩

/-! ## Claim C7 -/

/-- C7: the rendered sized-integer type names.  Every width follows the
fixed pub_uint/pub_int pattern except the unsigned width-16 type, which the
code renders as "pub_uin16" (missing "t") instead of the claimed
"pub_uint16". -/
theorem translate_base_typ_uint16_typo :
    (translate_base_typ 1 .UInt16).map (renderDoc 80) = some "pub_uin16" ∧
    (translate_base_typ 1 .UInt16).map (renderDoc 80) ≠ some "pub_uint16" ∧
    (translate_base_typ 1 .UInt8).map (renderDoc 80) = some "pub_uint8" ∧
    (translate_base_typ 1 .Int8).map (renderDoc 80) = some "pub_int8" ∧
    (translate_base_typ 1 .Int16).map (renderDoc 80) = some "pub_int16" ∧
    (translate_base_typ 1 .UInt32).map (renderDoc 80) = some "pub_uint32" ∧
    (translate_base_typ 1 .Int32).map (renderDoc 80) = some "pub_int32" ∧
    (translate_base_typ 1 .UInt64).map (renderDoc 80) = some "pub_uint64" ∧
    (translate_base_typ 1 .Int64).map (renderDoc 80) = some "pub_int64" ∧
    (translate_base_typ 1 .UInt128).map (renderDoc 80) = some "pub_uint128" ∧
    (translate_base_typ 1 .Int128).map (renderDoc 80) = some "pub_int128" :=
  ⟨rfl, by decide, rfl, rfl, rfl, rfl, rfl, rfl, rfl, rfl, rfl⟩

/-! ## Claim C8 -/

/-- C8 counterexample: when the artifact is created but writing to it
fails, the emitter panics (the `unwrap` on `write!`) — the outcome is not a
diagnostic, contradicting the claim's write-failure half. -/
theorem write_failure_panics :
    translate_and_write_to_file 1 (.ok ()) false "f.fst" (Program.mk []) [] =
        .panicked ∧
    ∀ msg,
      translate_and_write_to_file 1 (.ok ()) false "f.fst" (Program.mk []) [] ≠
        .diagnostic msg :=
  ⟨rfl, fun _ h => WriteOutcome.noConfusion h⟩

/-- C8 (amended): if creating the output artifact fails, the emitter
reports a diagnostic naming the (trimmed) artifact path and the underlying
I/O failure and returns without writing anything; a failure of the writes
themselves, by contrast, is a process panic, not a diagnostic. -/
theorem create_failure_reports_diagnostic :
    ∀ (f : Nat) (why file : String) (ws : Bool) (p : Program) (d : TypeDict),
      translate_and_write_to_file f (.error why) ws file p d =
        .diagnostic
          ("Unable to write to outuput file " ++ trimStr file ++ ": \"" ++
            why ++ "\"") ∧
      (∀ content,
        translate_and_write_to_file f (.error why) ws file p d ≠
          .wrote content) ∧
      (∀ (p' : Program) (d' : TypeDict),
        translate_and_write_to_file f (.ok ()) false file p' d' = .panicked) :=
  fun _ _ _ _ _ _ =>
    ⟨rfl, fun _ h => WriteOutcome.noConfusion h, fun _ _ => rfl⟩

/-- Witness for the amended C8 at a concrete failed creation and a concrete
failed write. -/
theorem create_failure_reports_diagnostic_witness :
    translate_and_write_to_file 1 (.error "denied") true " f.fst "
        (Program.mk []) [] =
      .diagnostic "Unable to write to outuput file f.fst: \"denied\"" ∧
    translate_and_write_to_file 1 (.ok ()) false "f.fst" (Program.mk []) [] =
      .panicked :=
  ⟨(create_failure_reports_diagnostic 1 "denied" " f.fst " true
      (Program.mk []) []).1,
    (create_failure_reports_diagnostic 1 "x" "f.fst" true (Program.mk [])
        []).2.2 (Program.mk []) []⟩

/-! ## Claim C9 -/

/-- C9: determinism — translation and rendering are pure functions of the
(Program, TypeDict) input: two runs on equal inputs yield byte-identical
emitted text and identical write outcomes. -/
theorem emitter_deterministic :
    ∀ (f : Nat) (cr : Except String Unit) (ws : Bool) (file : String)
      (p1 p2 : Program) (d1 d2 : TypeDict),
      p1 = p2 → d1 = d2 →
      translate_and_write_to_file f cr ws file p1 d1 =
          translate_and_write_to_file f cr ws file p2 d2 ∧
        emitted_text f file p1 d1 = emitted_text f file p2 d2 := by
  intro f cr ws file p1 p2 d1 d2 hp hd
  subst hp
  subst hd
  exact ⟨rfl, rfl⟩

/-- Witness for C9 at a concrete run. -/
theorem emitter_deterministic_witness :
    (Program.mk [] = Program.mk []) ∧ (([] : TypeDict) = []) ∧
    (translate_and_write_to_file 1 (.ok ()) true "chacha.fst" (Program.mk []) [] =
        translate_and_write_to_file 1 (.ok ()) true "chacha.fst" (Program.mk [])
          [] ∧
      emitted_text 1 "chacha.fst" (Program.mk []) [] =
        emitted_text 1 "chacha.fst" (Program.mk []) []) :=
  ⟨rfl, rfl,
    emitter_deterministic 1 (.ok ()) true "chacha.fst" _ _ _ _ rfl rfl⟩

/-! ## Claims C3, C4, C5: structure of conditionals, loops and items -/

/-- Shape of the translated synthesized trailing statement for a mutated
pair: whenever it translates successfully, the result is the grouped tuple
of the two variables, in order. -/
lemma tail_shape_pair (f : Nat) (ia ib : Ident) (d : TypeDict) (x : Doc)
    (h : translate_statement f (.ReturnExp (.Tuple [.Named ia, .Named ib])) d =
      some x) :
    x = Doc.group (make_tuple [translate_ident ia, translate_ident ib]) := by
  obtain _ | _ | _ | f := f
  · exact Option.noConfusion h
  · exact Option.noConfusion h
  · exact Option.noConfusion h
  · exact (Option.some.inj h).symm

/-- Shape of the translated synthesized trailing statement for a single
mutated variable. -/
lemma tail_shape_single (f : Nat) (ia : Ident) (d : TypeDict) (x : Doc)
    (h : translate_statement f (.ReturnExp (.Named ia)) d = some x) :
    x = Doc.group (translate_ident ia) := by
  obtain _ | _ | f := f
  · exact Option.noConfusion h
  · exact Option.noConfusion h
  · exact (Option.some.inj h).symm

/-- C5: for a function item named `new` with no parameters and unit return
type, the translated name is the escaped "new_", and the item translates to
a top-level let binding whose head is `new_ () : unit` and whose body is the
translated block followed by a trailing hard-line unit literal. -/
theorem fn_new_unit_decl (fuel : Nat) (b : Block) (d : TypeDict)
    (hsome : (translate_item fuel
        (.FnDecl (.Original "new") (FuncSig.mk [] .Unit) b) d).isSome = true) :
    translate_ident_s (.Original "new") = "new_" ∧
    ∃ bd, translate_block fuel b false d = some bd ∧
      translate_item fuel (.FnDecl (.Original "new") (FuncSig.mk [] .Unit) b) d =
        some (make_let_binding
          (((((translate_ident (.Original "new")).append Doc.line).append
              (Doc.text "()")).append Doc.line).append
            ((((Doc.text ":").append space).append (Doc.text "unit")).group))
          none
          ((bd.append (Doc.hardline.append (Doc.text "()"))).group)
          true) := by
  refine ⟨rfl, ?_⟩
  obtain _ | f := fuel
  · simp [translate_item, translate_base_typ] at hsome
  · cases hb : translate_block (f + 1) b false d with
    | none => simp [translate_item, translate_base_typ, hb] at hsome
    | some bd =>
      refine ⟨bd, rfl, ?_⟩
      simp [translate_item, translate_base_typ, hb]

/-- C3: a conditional whose mutated-variable annotation lists the ordered
pair [a, b] (with the synthesized trailing statement returning that tuple)
translates to a let binding whose pattern is the tuple (a, b) in that order,
whose then branch and else part (block or fallback) both end in the
identical trailing document — the grouped tuple (a, b). -/
theorem conditional_mutated_tuple_consistency
    (fuel : Nat) (cond : Expression) (b1 : Block) (b2 : Option Block)
    (ia ib : Ident) (S : Statement) (d : TypeDict)
    (hS : S = .ReturnExp (.Tuple [.Named ia, .Named ib]))
    (hsome : (translate_statement fuel
        (.Conditional cond b1 b2 (some (MutatedInfo.mk [ia, ib] S))) d).isSome =
      true) :
    ∃ (condd b1d elsePart : Doc),
      translate_statement fuel
          (.Conditional cond b1 b2 (some (MutatedInfo.mk [ia, ib] S))) d =
        some (Doc.group (make_let_binding
          (make_tuple [translate_ident ia, translate_ident ib]) none
          (cond_doc condd
            ((b1d.append Doc.hardline).append
              (Doc.group (make_tuple [translate_ident ia, translate_ident ib])))
            elsePart)
          false)) ∧
      Doc.EndsWith
        ((b1d.append Doc.hardline).append
          (Doc.group (make_tuple [translate_ident ia, translate_ident ib])))
        (Doc.group (make_tuple [translate_ident ia, translate_ident ib])) ∧
      ∃ (elseBody : Doc), elsePart = else_doc elseBody ∧
        Doc.EndsWith elseBody
          (Doc.group (make_tuple [translate_ident ia, translate_ident ib])) := by
  subst hS
  obtain _ | f := fuel
  · simp [translate_statement] at hsome
  · cases hc : translate_expression f cond d with
    | none =>
      simp [translate_statement, hc, MutatedInfo.vars, MutatedInfo.stmt] at hsome
    | some condd =>
      cases hb1 : optMap
          (fun st => (translate_statement f st d).map Doc.group) b1.stmts with
      | none =>
        simp [translate_statement, hc, hb1, MutatedInfo.vars, MutatedInfo.stmt]
          at hsome
      | some ds1 =>
        cases hbd1 : block_doc ds1 b1.return_typ true with
        | none =>
          simp [translate_statement, hc, hb1, hbd1, MutatedInfo.vars,
            MutatedInfo.stmt] at hsome
        | some b1d =>
          cases ht : translate_statement f
              (.ReturnExp (.Tuple [.Named ia, .Named ib])) d with
          | none =>
            simp [translate_statement, hc, hb1, hbd1, ht, MutatedInfo.vars,
              MutatedInfo.stmt] at hsome
          | some taild =>
            have htail := tail_shape_pair f ia ib d taild ht
            subst htail
            cases b2 with
            | none =>
              refine ⟨condd, b1d,
                else_doc (Doc.group
                  (make_tuple [translate_ident ia, translate_ident ib])),
                ?_, ?_, ?_⟩
              · simp [translate_statement, hc, hb1, hbd1, ht, MutatedInfo.vars,
                  MutatedInfo.stmt]
              · exact Or.inr (Or.inl rfl)
              · exact ⟨Doc.group
                  (make_tuple [translate_ident ia, translate_ident ib]),
                  rfl, Or.inl rfl⟩
            | some bb =>
              cases hb2 : optMap
                  (fun st => (translate_statement f st d).map Doc.group)
                  bb.stmts with
              | none =>
                simp [translate_statement, hc, hb1, hbd1, ht, hb2,
                  MutatedInfo.vars, MutatedInfo.stmt] at hsome
              | some ds2 =>
                cases hbd2 : block_doc ds2 bb.return_typ true with
                | none =>
                  simp [translate_statement, hc, hb1, hbd1, ht, hb2, hbd2,
                    MutatedInfo.vars, MutatedInfo.stmt] at hsome
                | some b2d =>
                  refine ⟨condd, b1d,
                    else_doc ((b2d.append Doc.hardline).append
                      (Doc.group
                        (make_tuple [translate_ident ia, translate_ident ib]))),
                    ?_, ?_, ?_⟩
                  · simp [translate_statement, hc, hb1, hbd1, ht, hb2, hbd2,
                      MutatedInfo.vars, MutatedInfo.stmt]
                  · exact Or.inr (Or.inl rfl)
                  · exact ⟨(b2d.append Doc.hardline).append
                        (Doc.group
                          (make_tuple [translate_ident ia, translate_ident ib])),
                      rfl, Or.inr (Or.inl rfl)⟩

/-- C4 (amended): a for-loop whose body's mutated-variable annotation lists
exactly [acc] (with the synthesized trailing statement returning acc)
translates to a let binding of the 1-tuple (acc) to a `foldi` applied to
the parenthesized bounds, a closure taking the pair of the index and the
1-tuple (acc) whose body is followed — on a new line, not after a
semicolon — by the translated trailing statement, with (acc) as both the
initial accumulator and the bound pattern. -/
theorem for_loop_foldi_structure
    (fuel : Nat) (ix : Ident) (e1 e2 : Expression) (stmts : List Statement)
    (acc : Ident) (S : Statement) (rt : Option Typ) (d : TypeDict)
    (hS : S = .ReturnExp (.Named acc))
    (hsome : (translate_statement fuel
        (.ForLoop ix e1 e2
          (Block.mk stmts (some (MutatedInfo.mk [acc] S)) rt)) d).isSome =
      true) :
    ∃ (d1 d2 bd : Doc),
      translate_statement fuel
          (.ForLoop ix e1 e2
            (Block.mk stmts (some (MutatedInfo.mk [acc] S)) rt)) d =
        some (Doc.group (make_let_binding (make_tuple [translate_ident acc])
          none
          (loop_doc d1 d2
            (make_tuple [translate_ident ix, make_tuple [translate_ident acc]])
            bd (Doc.group (translate_ident acc))
            (make_tuple [translate_ident acc]))
          false)) := by
  subst hS
  obtain _ | f := fuel
  · simp [translate_statement] at hsome
  · cases h1 : translate_expression f e1 d with
    | none =>
      simp [translate_statement, h1, Block.mutated, Block.stmts,
        Block.return_typ, MutatedInfo.vars, MutatedInfo.stmt] at hsome
    | some d1 =>
      cases h2 : translate_expression f e2 d with
      | none =>
        simp [translate_statement, h1, h2, Block.mutated, Block.stmts,
          Block.return_typ, MutatedInfo.vars, MutatedInfo.stmt] at hsome
      | some d2 =>
        cases hb : optMap
            (fun st => (translate_statement f st d).map Doc.group) stmts with
        | none =>
          simp [translate_statement, h1, h2, hb, Block.mutated, Block.stmts,
            Block.return_typ, MutatedInfo.vars, MutatedInfo.stmt] at hsome
        | some ds =>
          cases hbd : block_doc ds rt true with
          | none =>
            simp [translate_statement, h1, h2, hb, hbd, Block.mutated,
              Block.stmts, Block.return_typ, MutatedInfo.vars,
              MutatedInfo.stmt] at hsome
          | some bd =>
            cases ht : translate_statement f (.ReturnExp (.Named acc)) d with
            | none =>
              simp [translate_statement, h1, h2, hb, hbd, ht, Block.mutated,
                Block.stmts, Block.return_typ, MutatedInfo.vars,
                MutatedInfo.stmt] at hsome
            | some taild =>
              have htail := tail_shape_single f acc d taild ht
              subst htail
              refine ⟨d1, d2, bd, ?_⟩
              simp [translate_statement, h1, h2, hb, hbd, ht, Block.mutated,
                Block.stmts, Block.return_typ, MutatedInfo.vars,
                MutatedInfo.stmt]

/-! Concrete inputs for the witnesses and counterexamples of C3, C4, C5. -/

def condB1 : Block :=
  Block.mk [.Reassignment (.Original "a") (.Lit (.Usize 1))] none
    (some (Borrowing.Consumed, .Unit))

def condStmt : Statement :=
  .Conditional (.Named (.Original "cnd")) condB1 none
    (some (MutatedInfo.mk [.Original "a", .Original "b"]
      (.ReturnExp (.Tuple [.Named (.Original "a"), .Named (.Original "b")]))))

def loopBlock : Block :=
  Block.mk [.Reassignment (.Original "acc") (.Lit (.Usize 1))]
    (some (MutatedInfo.mk [.Original "acc"]
      (.ReturnExp (.Named (.Original "acc")))))
    (some (Borrowing.Consumed, .Unit))

def loopStmt : Statement :=
  .ForLoop (.Original "i") (.Named (.Original "lo")) (.Named (.Original "hi"))
    loopBlock

def newFn : Item :=
  .FnDecl (.Original "new") (FuncSig.mk [] .Unit)
    (Block.mk [.LetBinding (.IdentPat (.Original "x")) none (.Lit (.Usize 0))]
      none (some (Borrowing.Consumed, .Unit)))

/-- Witness for C3 at a concrete conditional without an else block; the
second conjunct records the exact 80-column rendering, in which both
branches end in the tuple "(a, b)" and the binding pattern is "(a, b)". -/
theorem conditional_mutated_tuple_consistency_witness :
    ((translate_statement 9 condStmt []).isSome = true ∧
      (translate_statement 9 condStmt []).map (renderDoc 80) =
        some ("let (a, b) =\n  if cnd then begin\n    let a = usize 1 in\n" ++
          "    (a, b)\n  end else begin (a, b)\n  end\nin")) ∧
    (∃ (condd b1d elsePart : Doc),
      translate_statement 9 condStmt [] =
        some (Doc.group (make_let_binding
          (make_tuple [translate_ident (.Original "a"),
            translate_ident (.Original "b")]) none
          (cond_doc condd
            ((b1d.append Doc.hardline).append
              (Doc.group (make_tuple [translate_ident (.Original "a"),
                translate_ident (.Original "b")])))
            elsePart)
          false)) ∧
      Doc.EndsWith
        ((b1d.append Doc.hardline).append
          (Doc.group (make_tuple [translate_ident (.Original "a"),
            translate_ident (.Original "b")])))
        (Doc.group (make_tuple [translate_ident (.Original "a"),
          translate_ident (.Original "b")])) ∧
      ∃ (elseBody : Doc), elsePart = else_doc elseBody ∧
        Doc.EndsWith elseBody
          (Doc.group (make_tuple [translate_ident (.Original "a"),
            translate_ident (.Original "b")]))) :=
  ⟨⟨rfl, rfl⟩,
    conditional_mutated_tuple_consistency 9 (.Named (.Original "cnd")) condB1
      none (.Original "a") (.Original "b") _ [] rfl rfl⟩

/-- C4 counterexample: at a concrete for-loop over i from lo to hi whose
body mutates only acc, the statement renders with the mutated singleton as
the 1-tuple "(acc)" in the binding pattern, the closure argument and the
initial accumulator, and with the trailing accumulator on its own line —
not as the claimed `let acc = foldi (lo) (hi) (fun (i, acc) -> <body>; acc)
acc in`, whose head "let acc = foldi" the rendering does not even start
with. -/
theorem for_loop_claimed_rendering_false :
    (translate_statement 9 loopStmt []).map (renderDoc 80) =
      some ("let (acc) =\n  foldi (lo) (hi) (fun (i, (acc)) ->\n" ++
        "    let acc = usize 1 in\n    acc)\n  (acc)\nin") ∧
    ¬ ((((translate_statement 9 loopStmt []).map (renderDoc 80)).getD
        "").data.take 15 = "let acc = foldi".data) :=
  ⟨rfl, by decide⟩

/-- Witness for the amended C4 at the concrete loop, with its exact
rendering. -/
theorem for_loop_foldi_structure_witness :
    ((translate_statement 9 loopStmt []).isSome = true ∧
      (translate_statement 9 loopStmt []).map (renderDoc 80) =
        some ("let (acc) =\n  foldi (lo) (hi) (fun (i, (acc)) ->\n" ++
          "    let acc = usize 1 in\n    acc)\n  (acc)\nin")) ∧
    (∃ (d1 d2 bd : Doc),
      translate_statement 9 loopStmt [] =
        some (Doc.group (make_let_binding
          (make_tuple [translate_ident (.Original "acc")]) none
          (loop_doc d1 d2
            (make_tuple [translate_ident (.Original "i"),
              make_tuple [translate_ident (.Original "acc")]])
            bd (Doc.group (translate_ident (.Original "acc")))
            (make_tuple [translate_ident (.Original "acc")]))
          false))) :=
  ⟨⟨rfl, rfl⟩,
    for_loop_foldi_structure 9 (.Original "i") (.Named (.Original "lo"))
      (.Named (.Original "hi")) [.Reassignment (.Original "acc") (.Lit (.Usize 1))]
      (.Original "acc") _ (some (Borrowing.Consumed, .Unit)) [] rfl rfl⟩

/-- Witness for C5 at a concrete one-statement body, with the exact
rendering: the declaration head is `let new_ () : unit =` and the body is
followed by the trailing unit literal. -/
theorem fn_new_unit_decl_witness :
    ((translate_item 9 newFn []).isSome = true ∧
      (translate_item 9 newFn []).map (renderDoc 80) =
        some "let new_ () : unit =\n  let x = usize 0 in\n  ()\n  ()") ∧
    (translate_ident_s (.Original "new") = "new_" ∧
      ∃ bd, translate_block 9 (Block.mk
          [.LetBinding (.IdentPat (.Original "x")) none (.Lit (.Usize 0))]
          none (some (Borrowing.Consumed, .Unit))) false [] = some bd ∧
        translate_item 9 newFn [] =
          some (make_let_binding
            (((((translate_ident (.Original "new")).append Doc.line).append
                (Doc.text "()")).append Doc.line).append
              ((((Doc.text ":").append space).append (Doc.text "unit")).group))
            none
            ((bd.append (Doc.hardline.append (Doc.text "()"))).group)
            true)) :=
  ⟨⟨rfl, rfl⟩,
    fn_new_unit_decl 9 (Block.mk
      [.LetBinding (.IdentPat (.Original "x")) none (.Lit (.Usize 0))]
      none (some (Borrowing.Consumed, .Unit))) [] rfl⟩

end Hacspec
